import Mathlib

/-!
Shallow embedding of the dynamic-gateway repository (Go) in Lean 4, together
with theorems settling the frozen claims about its specification.

Modelled source files:
* `internal/balancer/round_robin.go` — round-robin backend selector
* `internal/pool/connection_pool.go` — gRPC connection pool
* `internal/router/http_handler.go` — route matching and HTTP dispatch
* `internal/router/protocol_converter.go` — HTTP/JSON <-> gRPC/Struct bridge

Machine integers are modelled as `Nat` with explicit reduction modulo
`2 ^ 32` where the Go code uses `uint32` arithmetic.
-/

set_option maxRecDepth 8000

namespace Gateway

/-! ## Balancer: `internal/balancer/round_robin.go`

`RoundRobinBalancer` holds a backend slice and a `uint32` counter.
`Next` does `index := atomic.AddUint32(&b.counter, 1)` and returns
`backends[int(index-1) % len(backends)]`; the `uint32` subtraction
`index - 1` wraps modulo `2^32`.  We keep the invariant `counter < 2^32`
(every stored value is a reduced `uint32`). -/

/-- `2 ^ 32`, the modulus of Go `uint32` arithmetic. -/
def U32 : Nat := 4294967296

/-- State of `RoundRobinBalancer`: the backend slice and the `uint32` counter. -/
structure RoundRobinBalancer where
  backends : List String
  counter : Nat
deriving Repr, DecidableEq

/-- `NewRoundRobinBalancer`: fresh balancer with counter `0`. -/
def NewRoundRobinBalancer (backends : List String) : RoundRobinBalancer :=
  { backends := backends, counter := 0 }

/-- `Next`: returns `""` on an empty backend list; otherwise increments the
`uint32` counter (wrapping), lets `index` be the new value, and returns
`backends[int(index-1) % len(backends)]` where `index - 1` is `uint32`
subtraction (wrapping).  Returns the address together with the new state. -/
def Next (b : RoundRobinBalancer) : String × RoundRobinBalancer :=
  if b.backends.isEmpty then ("", b)
  else
    let index := (b.counter + 1) % U32
    let idxm1 := (index + U32 - 1) % U32
    (b.backends.getD (idxm1 % b.backends.length) "",
     { b with counter := index })

/-- `UpdateBackends`: replaces the backend slice and stores `0` into the
counter (`atomic.StoreUint32(&b.counter, 0)`). -/
def UpdateBackends (_b : RoundRobinBalancer) (backends : List String) :
    RoundRobinBalancer :=
  { backends := backends, counter := 0 }

/-- Iterate the state component of `Next` `n` times. -/
def rrIter (b : RoundRobinBalancer) : Nat → RoundRobinBalancer
  | 0 => b
  | n + 1 => (Next (rrIter b n)).2

/-- Address returned by the `(n+1)`-st call to `Next` on a balancer on which
`n` calls have already happened (0-indexed call number `n`). -/
def nthAddr (b : RoundRobinBalancer) (n : Nat) : String :=
  (Next (rrIter b n)).1

theorem rrIter_fresh (bs : List String) (h : bs ≠ []) (k : Nat) :
    rrIter (NewRoundRobinBalancer bs) k =
      { backends := bs, counter := k % U32 } := by
  induction k with
  | zero =>
    simp [rrIter, NewRoundRobinBalancer]
  | succ n ih =>
    have e : (n % U32 + 1) % U32 = (n + 1) % U32 := by
      simp only [U32]; omega
    rw [rrIter, ih]
    simp only [Next, List.isEmpty_iff]
    rw [if_neg h]
    show ({ backends := bs, counter := (n % U32 + 1) % U32 } :
      RoundRobinBalancer) = _
    rw [e]

/-- Closed form: the 0-indexed `k`-th call to `Next` on a fresh balancer over
a non-empty list `bs` returns `bs[(k % 2^32) % bs.length]`. -/
theorem nthAddr_fresh (bs : List String) (h : bs ≠ []) (k : Nat) :
    nthAddr (NewRoundRobinBalancer bs) k =
      bs.getD ((k % U32) % bs.length) "" := by
  have e : ((k % U32 + 1) % U32 + U32 - 1) % U32 = k % U32 := by
    simp only [U32]; omega
  rw [nthAddr, rrIter_fresh bs h k]
  simp only [Next, List.isEmpty_iff]
  rw [if_neg h]
  show bs.getD (((k % U32 + 1) % U32 + U32 - 1) % U32 % bs.length) "" = _
  rw [e]

/-- C1 (counterexample): the claim "the `i`-th call returns
`backends[i mod N]` for every `i`" fails at the concrete input
`backends = ["x", "y", "z"]`, call number `i = 2^32 = 4294967296`:
the `uint32` counter has wrapped, so the call returns `"x"`
(`backends[0]`) while the claim predicts `backends[4294967296 mod 3]
= backends[1] = "y"`. -/
theorem c1_counterexample :
    nthAddr (NewRoundRobinBalancer ["x", "y", "z"]) 4294967296 = "x" ∧
    ["x", "y", "z"].getD (4294967296 % 3) "" = "y" ∧
    ("x" : String) ≠ "y" := by
  refine ⟨?_, by decide, by decide⟩
  rw [nthAddr_fresh _ (by decide) _]
  decide

/-- C1 (amended): starting from a freshly created balancer over a non-empty
backend list, the 0-indexed `k`-th call to `Next` returns
`backends[(k mod 2^32) mod N]`; in particular, for the first `2^32` calls
(`k < 2^32`) this is exactly `backends[k mod N]`, with no duplicates and no
skips.  The `uint32` counter wraps at `2^32`, which skews the sequence
afterwards whenever `N` does not divide `2^32`. -/
theorem c1_round_robin_sequence (bs : List String) (h : bs ≠ []) (k : Nat) :
    nthAddr (NewRoundRobinBalancer bs) k =
      bs.getD ((k % U32) % bs.length) "" ∧
    (k < U32 →
      nthAddr (NewRoundRobinBalancer bs) k = bs.getD (k % bs.length) "") := by
  refine ⟨nthAddr_fresh bs h k, fun hk => ?_⟩
  rw [nthAddr_fresh bs h k, Nat.mod_eq_of_lt hk]

/-- C1 (witness): on backends `["a", "b"]`, calls number 2 and 3 return
`"a"` and `"b"` respectively. -/
theorem c1_witness :
    nthAddr (NewRoundRobinBalancer ["a", "b"]) 2 = "a" ∧
    nthAddr (NewRoundRobinBalancer ["a", "b"]) 3 = "b" := by
  have h2 := c1_round_robin_sequence ["a", "b"] (by decide) 2
  have h3 := c1_round_robin_sequence ["a", "b"] (by decide) 3
  refine ⟨?_, ?_⟩
  · rw [h2.2 (by decide)]
    decide
  · rw [h3.2 (by decide)]
    decide

/-- C6: on a balancer whose backend list is empty, `Next` always returns
`""` (EMPTY), leaves the state unchanged (in particular it does not touch
the counter), and — being a total function — never blocks or panics: the
empty-list check precedes any indexing or modulus computation. -/
theorem c6_empty_returns_empty (c : Nat) :
    Next { backends := [], counter := c } =
      ("", { backends := [], counter := c }) := by
  simp [Next]

/-- C7: `UpdateBackends` replaces the whole backend list in one step of the
state (an observer of the state sees either the old or the new list value,
never a mixture) and resets the counter to zero, so when the new list is
non-empty the first `Next` after the update returns its first element. -/
theorem c7_update_resets (b : RoundRobinBalancer) (bs : List String) :
    (UpdateBackends b bs).backends = bs ∧
    (UpdateBackends b bs).counter = 0 ∧
    (bs ≠ [] → (Next (UpdateBackends b bs)).1 = bs.getD 0 "") := by
  refine ⟨rfl, rfl, fun h => ?_⟩
  have e : ((0 + 1) % U32 + U32 - 1) % U32 = 0 := by
    simp [U32]
  simp only [UpdateBackends, Next, List.isEmpty_iff]
  rw [if_neg h]
  show bs.getD (((0 + 1) % U32 + U32 - 1) % U32 % bs.length) "" = _
  rw [e, Nat.zero_mod]

/-- C7 (witness): updating a balancer in mid-cycle state to `["p", "q"]`
resets the counter and makes the next call return `"p"`. -/
theorem c7_witness :
    (UpdateBackends { backends := ["old"], counter := 5 } ["p", "q"]).backends
      = ["p", "q"] ∧
    (UpdateBackends { backends := ["old"], counter := 5 } ["p", "q"]).counter
      = 0 ∧
    (Next (UpdateBackends { backends := ["old"], counter := 5 }
      ["p", "q"])).1 = "p" := by
  have h := c7_update_resets { backends := ["old"], counter := 5 } ["p", "q"]
  refine ⟨h.1, h.2.1, ?_⟩
  rw [h.2.2 (by decide)]
  decide

/-! ## Connection pool: `internal/pool/connection_pool.go`

`GetConnection` looks the address up in `p.connections` (a `sync.Map`);
on a hit whose `GetState()` is `Ready`, `Connecting` or `Idle` it returns
the cached connection; on a hit in any other state it calls `Close()`,
deletes the entry, and falls through; then it creates a fresh connection
(`grpc.DialContext` is non-blocking and a freshly dialled `ClientConn`
starts in state `Idle`), stores it, and returns it.  We model connections
by an identifier plus last-observed state, and log closed identifiers. -/

/-- `connectivity.State` of a gRPC client connection. -/
inductive ConnState where
  | ready
  | connecting
  | idle
  | transientFailure
  | shutdown
deriving Repr, DecidableEq

/-- The reuse test of `GetConnection`:
`state == Ready || state == Connecting || state == Idle`. -/
def usableState (s : ConnState) : Bool :=
  s == ConnState.ready || s == ConnState.connecting || s == ConnState.idle

/-- A pooled connection: identifier of the underlying handle plus its
last-observed state. -/
structure Conn where
  id : Nat
  state : ConnState
deriving Repr, DecidableEq

/-- Pool state: the `sync.Map` contents (association list keyed by
address), a source of fresh connection identifiers, and the log of
identifiers on which `Close()` has been called. -/
structure Pool where
  connections : List (String × Conn)
  nextId : Nat
  closed : List Nat
deriving Repr, DecidableEq

/-- `sync.Map.Load`. -/
def poolLoad (p : Pool) (address : String) : Option Conn :=
  (p.connections.find? (fun e => e.1 == address)).map (·.2)

/-- `sync.Map.Delete`. -/
def poolDelete (p : Pool) (address : String) : Pool :=
  { p with connections := p.connections.filter (fun e => !(e.1 == address)) }

/-- `createConnection` followed by `sync.Map.Store`: dials a fresh
connection (initially `Idle`) and stores it under the address. -/
def poolCreateStore (p : Pool) (address : String) : Conn × Pool :=
  let c : Conn := { id := p.nextId, state := ConnState.idle }
  (c, { p with
          connections := p.connections ++ [(address, c)],
          nextId := p.nextId + 1 })

/-- `GetConnection`: reuse a cached usable connection; close, delete and
re-dial a cached unusable one; dial and store when absent. -/
def GetConnection (p : Pool) (address : String) : Conn × Pool :=
  match poolLoad p address with
  | some c =>
    if usableState c.state then (c, p)
    else
      let p1 := poolDelete { p with closed := p.closed ++ [c.id] } address
      poolCreateStore p1 address
  | none => poolCreateStore p address

theorem poolLoad_delete (p : Pool) (a : String) :
    poolLoad (poolDelete p a) a = none := by
  simp only [poolLoad, poolDelete, Option.map_eq_none', List.find?_eq_none]
  intro e he
  rw [List.mem_filter] at he
  simpa using he.2

theorem poolLoad_createStore (p : Pool) (a : String)
    (h : poolLoad p a = none) :
    poolLoad (poolCreateStore p a).2 a =
      some { id := p.nextId, state := ConnState.idle } ∧
    (poolCreateStore p a).1 = { id := p.nextId, state := ConnState.idle } ∧
    (poolCreateStore p a).2.nextId = p.nextId + 1 ∧
    (poolCreateStore p a).2.closed = p.closed := by
  simp only [poolLoad, Option.map_eq_none'] at h
  refine ⟨?_, rfl, rfl, rfl⟩
  simp only [poolLoad, poolCreateStore, List.find?_append, h, Option.none_or]
  simp [List.find?_cons]

/-- C3: the acquire algorithm of `GetConnection`.  (1) A cached connection
observed in state ready, connecting or idle is returned as-is with the pool
untouched (no dial, the fresh-id source does not move).  (2) A cached
connection in any other state (transient failure or shutdown) is closed
(its id enters the closed log), removed, and replaced: the returned
connection is freshly dialled (`id = p.nextId`, state idle) and is what the
map now holds for that address.  (3) On a miss a fresh connection is
dialled, stored and returned. -/
theorem c3_acquire_algorithm (p : Pool) (address : String) :
    (∀ c, poolLoad p address = some c → usableState c.state = true →
      GetConnection p address = (c, p)) ∧
    (∀ c, poolLoad p address = some c → usableState c.state = false →
      (GetConnection p address).1 = { id := p.nextId, state := ConnState.idle }
        ∧ (GetConnection p address).2.nextId = p.nextId + 1
        ∧ c.id ∈ (GetConnection p address).2.closed
        ∧ poolLoad (GetConnection p address).2 address =
            some { id := p.nextId, state := ConnState.idle }) ∧
    (poolLoad p address = none →
      (GetConnection p address).1 = { id := p.nextId, state := ConnState.idle }
        ∧ (GetConnection p address).2.nextId = p.nextId + 1
        ∧ poolLoad (GetConnection p address).2 address =
            some { id := p.nextId, state := ConnState.idle }) := by
  refine ⟨?_, ?_, ?_⟩
  · intro c hc hu
    simp [GetConnection, hc, hu]
  · intro c hc hu
    have hq := poolLoad_delete
      { p with closed := p.closed ++ [c.id] } address
    have hcs := poolLoad_createStore
      (poolDelete { p with closed := p.closed ++ [c.id] } address) address hq
    have hg : GetConnection p address =
        poolCreateStore
          (poolDelete { p with closed := p.closed ++ [c.id] } address)
          address := by
      simp [GetConnection, hc, hu]
    rw [hg]
    refine ⟨hcs.2.1, hcs.2.2.1, ?_, hcs.1⟩
    rw [hcs.2.2.2]
    show c.id ∈ p.closed ++ [c.id]
    simp
  · intro hc
    have hcs := poolLoad_createStore p address hc
    have hg : GetConnection p address = poolCreateStore p address := by
      simp [GetConnection, hc]
    rw [hg]
    exact ⟨hcs.2.1, hcs.2.2.1, hcs.1⟩

/-- C3 (witness): concrete pools exercising all three branches: a cached
ready connection is reused untouched; a cached shut-down connection is
closed and replaced by a fresh one; a miss dials and stores a fresh one. -/
theorem c3_witness :
    GetConnection
        { connections := [("b1", { id := 7, state := ConnState.ready })],
          nextId := 8, closed := [] } "b1" =
      ({ id := 7, state := ConnState.ready },
       { connections := [("b1", { id := 7, state := ConnState.ready })],
         nextId := 8, closed := [] }) ∧
    (GetConnection
        { connections := [("b2", { id := 3, state := ConnState.shutdown })],
          nextId := 4, closed := [] } "b2").1 =
      { id := 4, state := ConnState.idle } ∧
    3 ∈ (GetConnection
        { connections := [("b2", { id := 3, state := ConnState.shutdown })],
          nextId := 4, closed := [] } "b2").2.closed ∧
    (GetConnection
        { connections := [], nextId := 0, closed := [] } "b3").1 =
      { id := 0, state := ConnState.idle } := by
  have h1 := (c3_acquire_algorithm
      { connections := [("b1", { id := 7, state := ConnState.ready })],
        nextId := 8, closed := [] } "b1").1
      { id := 7, state := ConnState.ready } (by decide) (by decide)
  have h2 := (c3_acquire_algorithm
      { connections := [("b2", { id := 3, state := ConnState.shutdown })],
        nextId := 4, closed := [] } "b2").2.1
      { id := 3, state := ConnState.shutdown } (by decide) (by decide)
  have h3 := (c3_acquire_algorithm
      { connections := [], nextId := 0, closed := [] } "b3").2.2 (by decide)
  exact ⟨h1, h2.1, h2.2.2.1, h3.1⟩

/-! ### C4: the check-then-create race in `GetConnection`

`GetConnection` performs `p.connections.Load(address)` and, on a miss,
`createConnection` followed by `p.connections.Store(address, conn)`
with no lock held in between (the pool's `mu` mutex is never used), so two
concurrent callers can both miss and both dial.  We model two tasks running
the two-phase code for the same address against an initially empty map
under an explicit interleaving schedule. -/

/-- Program counter of one task executing `GetConnection` for the fixed
address: not started; after the `Load`, remembering what it saw; finished,
holding the connection id it will return. -/
inductive TaskPC where
  | start
  | loaded (found : Option Nat)
  | finished (conn : Nat)
deriving Repr, DecidableEq

/-- Shared state of the two-task race: the `sync.Map` entry for the
address, the number of `createConnection` calls (dials), the fresh-id
source, and both tasks. -/
structure RaceState where
  entry : Option Nat
  dials : Nat
  freshId : Nat
  task0 : TaskPC
  task1 : TaskPC
deriving Repr, DecidableEq

/-- One step of task `i` (`false` = task 0, `true` = task 1):
`start` performs the `Load`; `loaded none` performs
`createConnection` + `Store` (a dial); `loaded (some c)` returns the
cached (usable, freshly-dialled) connection; `finished` does nothing. -/
def raceStep (s : RaceState) (i : Bool) : RaceState :=
  let pc := if i then s.task1 else s.task0
  let set := fun (s' : RaceState) (pc' : TaskPC) =>
    if i then { s' with task1 := pc' } else { s' with task0 := pc' }
  match pc with
  | TaskPC.start => set s (TaskPC.loaded s.entry)
  | TaskPC.loaded none =>
      set { s with entry := some s.freshId, dials := s.dials + 1,
                   freshId := s.freshId + 1 } (TaskPC.finished s.freshId)
  | TaskPC.loaded (some c) => set s (TaskPC.finished c)
  | TaskPC.finished _ => s

/-- Run a schedule (list of task choices) from the initial state:
empty map, no dials yet. -/
def raceRun (sched : List Bool) : RaceState :=
  sched.foldl raceStep
    { entry := none, dials := 0, freshId := 0,
      task0 := TaskPC.start, task1 := TaskPC.start }

/-- C4: under the schedule "task 0 loads, task 1 loads, task 0 dials and
stores, task 1 dials and stores" — which the unsynchronized `Load` /
`Store` pair admits — both concurrent `GetConnection` calls for the same
address dial: two connections are created, the two callers hold distinct
connections 0 and 1, and the map retains only connection 1, so connection 0
is overwritten without ever being closed (a leaked handle).  This
contradicts the claimed atomic check-then-create. -/
theorem c4_duplicate_dial_race :
    (raceRun [false, true, false, true]).dials = 2 ∧
    (raceRun [false, true, false, true]).task0 = TaskPC.finished 0 ∧
    (raceRun [false, true, false, true]).task1 = TaskPC.finished 1 ∧
    (raceRun [false, true, false, true]).entry = some 1 := by
  decide

/-! ## Route matching: `internal/router/http_handler.go`

Go string primitives (`strings.HasPrefix`, `strings.HasSuffix`,
`strings.TrimSuffix`, `strings.Trim`, `strings.Split`) are modelled
byte-for-byte on the character lists underlying `String`. -/

/-- `strings.HasPrefix s pre` (second argument is the initial segment). -/
def hasStart : List Char → List Char → Bool
  | _, [] => true
  | [], _ :: _ => false
  | c :: cs, d :: ds => c == d && hasStart cs ds

/-- `strings.HasPrefix` on `String`. -/
def strHasStart (s pre : String) : Bool := hasStart s.data pre.data

/-- `strings.HasSuffix routePath "*"`. -/
def endsWithStar (s : String) : Bool :=
  match s.data.getLast? with
  | some c => c == '*'
  | none => false

/-- `strings.TrimSuffix s "*"`: drops one trailing `*` when present. -/
def trimStar (s : String) : String :=
  if endsWithStar s then String.mk s.data.dropLast else s

/-- An entry of `config.HTTPRoute` (the fields used by route matching and
dispatch). -/
structure HTTPRoute where
  Path : String
  Methods : List String
  TargetProtocol : String
deriving Repr, DecidableEq

/-- `pathMatches`: a pattern ending in `*` matches any path having the
pattern minus `*` as a prefix; otherwise the pattern must be a prefix of
the path (`strings.HasPrefix`). -/
def pathMatches (requestPath routePath : String) : Bool :=
  if endsWithStar routePath then strHasStart requestPath (trimStar routePath)
  else strHasStart requestPath routePath

/-- Method filter of `findRoute`: an empty method list accepts every
method, otherwise the inbound method must occur in the list. -/
def methodAllowed (methods : List String) (method : String) : Bool :=
  methods.isEmpty || methods.contains method

/-- Whole route test of one iteration of `findRoute`. -/
def matchesRoute (r : HTTPRoute) (path method : String) : Bool :=
  pathMatches path r.Path && methodAllowed r.Methods method

/-- `findRoute` loop with index `i` carried for the `route_%d` key. -/
def findRouteAux (path method : String) :
    List HTTPRoute → Nat → Option (HTTPRoute × String)
  | [], _ => none
  | r :: rest, i =>
    if matchesRoute r path method then some (r, "route_" ++ toString i)
    else findRouteAux path method rest (i + 1)

/-- `findRoute`: first declared route matching path and method wins. -/
def findRoute (routes : List HTTPRoute) (path method : String) :
    Option (HTTPRoute × String) :=
  findRouteAux path method routes 0

theorem findRouteAux_append (path method : String) (pre : List HTTPRoute)
    (r : HTTPRoute) (post : List HTTPRoute) (i : Nat)
    (hpre : ∀ r' ∈ pre, matchesRoute r' path method = false)
    (hr : matchesRoute r path method = true) :
    findRouteAux path method (pre ++ r :: post) i =
      some (r, "route_" ++ toString (i + pre.length)) := by
  induction pre generalizing i with
  | nil => simp [findRouteAux, hr]
  | cons q rest ih =>
    have hq : matchesRoute q path method = false := hpre q (by simp)
    have hrest : ∀ r' ∈ rest, matchesRoute r' path method = false :=
      fun r' h' => hpre r' (by simp [h'])
    show findRouteAux path method (q :: (rest ++ r :: post)) i = _
    rw [findRouteAux, if_neg (by simp [hq]), ih (i + 1) hrest]
    have : i + 1 + rest.length = i + (rest.length + 1) := by omega
    simp [this]

/-- C5: route matching iterates declared routes in configuration order and
the first structural match wins, with no specificity ranking: a route
matches when its pattern matches the path (a pattern ending in `*` matches
any path having the pattern minus `*` as a prefix; otherwise the pattern
must be a prefix of the path) and its method list is empty or contains the
inbound method.  Whenever no earlier route matches, the first matching
route is returned with its positional key. -/
theorem c5_first_match_wins (pre : List HTTPRoute) (r : HTTPRoute)
    (post : List HTTPRoute) (path method : String)
    (hpath : (endsWithStar r.Path = true ∧
        strHasStart path (trimStar r.Path) = true) ∨
      (endsWithStar r.Path = false ∧ strHasStart path r.Path = true))
    (hmethod : r.Methods = [] ∨ method ∈ r.Methods)
    (hpre : ∀ r' ∈ pre, matchesRoute r' path method = false) :
    findRoute (pre ++ r :: post) path method =
      some (r, "route_" ++ toString pre.length) := by
  have hpm : pathMatches path r.Path = true := by
    rcases hpath with ⟨h1, h2⟩ | ⟨h1, h2⟩ <;> simp [pathMatches, h1, h2]
  have hma : methodAllowed r.Methods method = true := by
    rcases hmethod with h | h
    · simp [methodAllowed, h]
    · simp [methodAllowed, List.contains, List.elem_iff, h]
  have hr : matchesRoute r path method = true := by
    simp [matchesRoute, hpm, hma]
  have := findRouteAux_append path method pre r post 0 hpre hr
  simpa [findRoute] using this

/-- C5 (witness): the spec's example — routes `["/api*", "/api/special"]`
in that order; a request to `/api/special` matches `/api*` (first match
wins), even though a more specific pattern exists later. -/
theorem c5_witness :
    findRoute
      [{ Path := "/api*", Methods := [], TargetProtocol := "http" },
       { Path := "/api/special", Methods := [], TargetProtocol := "http" }]
      "/api/special" "GET" =
    some ({ Path := "/api*", Methods := [], TargetProtocol := "http" },
          "route_0") := by
  have h := c5_first_match_wins []
    { Path := "/api*", Methods := [], TargetProtocol := "http" }
    [{ Path := "/api/special", Methods := [], TargetProtocol := "http" }]
    "/api/special" "GET"
    (Or.inl ⟨by decide, by decide⟩) (Or.inl rfl) (by simp)
  simpa using h

/-! ## gRPC-target dispatch: `ServeHTTP` + `routeHTTPToGRPC`

For a request matched to a route with target protocol `grpc`, `ServeHTTP`
first calls `balancer.Next()` (503 when it returns `""`), and only then
`routeHTTPToGRPC`, which splits
`strings.Split(strings.Trim(r.URL.Path, "/"), "/")` and rejects the call
with 400 when fewer than three segments result; otherwise
`serviceName := pathParts[1]` and `methodName := pathParts[2]`. -/

/-- `strings.Trim s "/"`: removes leading and trailing `/` characters. -/
def goTrimChar (s : List Char) (c : Char) : List Char :=
  ((s.dropWhile (· == c)).reverse.dropWhile (· == c)).reverse

/-- `strings.Split` with a one-character separator; `Split("", sep)`
returns `[""]` as in Go. -/
def goSplitChar : List Char → Char → List (List Char)
  | [], _ => [[]]
  | c :: rest, sep =>
    match goSplitChar rest sep with
    | h :: t => if c == sep then [] :: h :: t else (c :: h) :: t
    | [] => [[c]]

/-- `pathParts` of `routeHTTPToGRPC`. -/
def parsePathParts (path : String) : List String :=
  (goSplitChar (goTrimChar path.data '/') '/').map (fun l => String.mk l)

/-- Outcome of the gRPC-target leg of `ServeHTTP`. -/
inductive GrpcDispatch where
  | unavailable
  | badPath
  | invoked (service method : String)
deriving Repr, DecidableEq

/-- The gRPC-target leg of `ServeHTTP`: select a backend with `Next`
(503 `unavailable` when it returns `""`), then let `routeHTTPToGRPC`
split the path, answer 400 `badPath` on fewer than three segments, and
otherwise invoke with `service = pathParts[1]`, `method = pathParts[2]`
(further segments ignored).  The resulting balancer state is returned
alongside. -/
def dispatchGRPCRoute (b : RoundRobinBalancer) (path : String) :
    GrpcDispatch × RoundRobinBalancer :=
  let res := Next b
  if res.1 == "" then (GrpcDispatch.unavailable, res.2)
  else
    let parts := parsePathParts path
    if parts.length < 3 then (GrpcDispatch.badPath, res.2)
    else (GrpcDispatch.invoked (parts.getD 1 "") (parts.getD 2 ""), res.2)

/-- C10 (counterexample): for backends `["b1", "b2"]` and the two-segment
path `/grpc/onlysvc`, the handler does answer 400, but the round-robin
counter has already advanced to 1: backend selection happened before the
path was rejected, contradicting "rejects ... before any backend
selection". -/
theorem c10_counterexample :
    (dispatchGRPCRoute (NewRoundRobinBalancer ["b1", "b2"])
      "/grpc/onlysvc").1 = GrpcDispatch.badPath ∧
    (dispatchGRPCRoute (NewRoundRobinBalancer ["b1", "b2"])
      "/grpc/onlysvc").2.counter = 1 := by
  decide

/-- C10 (amended): for every request on a gRPC-target route whose selected
backend is non-empty, if the path, trimmed of slashes, splits into fewer
than three segments the handler rejects it with a 400 invalid-path error
before any translation or backend invocation — though after backend
selection, whose counter increment has already happened — and never
indexes past the segment list; otherwise the service and method names are
the second and third segments, with any further segments ignored. -/
theorem c10_path_segment_check (b : RoundRobinBalancer) (path : String)
    (h : (Next b).1 ≠ "") :
    ((parsePathParts path).length < 3 →
      dispatchGRPCRoute b path = (GrpcDispatch.badPath, (Next b).2)) ∧
    (3 ≤ (parsePathParts path).length →
      dispatchGRPCRoute b path =
        (GrpcDispatch.invoked ((parsePathParts path).getD 1 "")
          ((parsePathParts path).getD 2 ""), (Next b).2)) := by
  have hb : ((Next b).1 == "") = false := by
    simpa using h
  constructor
  · intro hlen
    simp only [dispatchGRPCRoute, hb, Bool.false_eq_true, if_false]
    rw [if_pos hlen]
  · intro hlen
    simp only [dispatchGRPCRoute, hb, Bool.false_eq_true, if_false]
    rw [if_neg (by omega)]

/-- C10 (witness): with one backend, the short path `/grpc/x` is rejected
with 400, and `/grpc/a/b/extra` invokes service `a`, method `b`, ignoring
the fourth segment. -/
theorem c10_witness :
    dispatchGRPCRoute (NewRoundRobinBalancer ["b1"]) "/grpc/x" =
      (GrpcDispatch.badPath, { backends := ["b1"], counter := 1 }) ∧
    dispatchGRPCRoute (NewRoundRobinBalancer ["b1"]) "/grpc/a/b/extra" =
      (GrpcDispatch.invoked "a" "b",
        { backends := ["b1"], counter := 1 }) := by
  have h1 := (c10_path_segment_check (NewRoundRobinBalancer ["b1"])
    "/grpc/x" (by decide)).1 (by decide)
  have h2 := (c10_path_segment_check (NewRoundRobinBalancer ["b1"])
    "/grpc/a/b/extra" (by decide)).2 (by decide)
  rw [h1, h2]
  decide

/-! ## Protocol bridge values: `internal/router/protocol_converter.go`

`HTTPToGRPC` parses the JSON body into `map[string]interface{}` and feeds
it to `structpb.NewStruct`; `GRPCToHTTP` marshals `structMsg.AsMap()` back
to JSON.  `Json` models the parsed JSON document (`encoding/json`
unmarshalling: numbers as one numeric scalar kind, here `Rat`; no
arithmetic is ever performed on them).  `SVal` models `structpb.Value`
with its six variants. -/

inductive Json where
  | null
  | bool (b : Bool)
  | num (q : Rat)
  | str (s : String)
  | arr (elems : List Json)
  | obj (fields : List (String × Json))
deriving Repr

/-- `structpb.Value`: null, number, string, bool, struct or list. -/
inductive SVal where
  | nullValue
  | numberValue (q : Rat)
  | stringValue (s : String)
  | boolValue (b : Bool)
  | structValue (fields : List (String × SVal))
  | listValue (vals : List SVal)
deriving Repr

mutual

/-- `structpb.NewValue` applied to the `interface{}` values produced by
`encoding/json` unmarshalling: nil, bool, float64, string, slice, map. -/
def jsonToVal : Json → SVal
  | Json.null => SVal.nullValue
  | Json.bool b => SVal.boolValue b
  | Json.num q => SVal.numberValue q
  | Json.str s => SVal.stringValue s
  | Json.arr es => SVal.listValue (jsonListToVals es)
  | Json.obj fs => SVal.structValue (jsonFieldsToVals fs)

/-- Elementwise `structpb.NewValue` over a JSON array. -/
def jsonListToVals : List Json → List SVal
  | [] => []
  | e :: es => jsonToVal e :: jsonListToVals es

/-- Fieldwise `structpb.NewStruct` over a JSON object. -/
def jsonFieldsToVals : List (String × Json) → List (String × SVal)
  | [] => []
  | (k, v) :: fs => (k, jsonToVal v) :: jsonFieldsToVals fs

end

mutual

/-- `structpb.Value.AsInterface`, whose result `json.Marshal` serializes:
the inverse rendering of a structured value as a JSON document. -/
def valToJson : SVal → Json
  | SVal.nullValue => Json.null
  | SVal.boolValue b => Json.bool b
  | SVal.numberValue q => Json.num q
  | SVal.stringValue s => Json.str s
  | SVal.listValue vs => Json.arr (valsToJsonList vs)
  | SVal.structValue fs => Json.obj (valsToJsonFields fs)

/-- Elementwise `AsInterface` over a `structpb.ListValue`. -/
def valsToJsonList : List SVal → List Json
  | [] => []
  | v :: vs => valToJson v :: valsToJsonList vs

/-- Fieldwise `AsMap` over a `structpb.Struct`. -/
def valsToJsonFields : List (String × SVal) → List (String × Json)
  | [] => []
  | (k, v) :: fs => (k, valToJson v) :: valsToJsonFields fs

end

mutual

theorem valToJson_jsonToVal : ∀ j, valToJson (jsonToVal j) = j
  | Json.null => rfl
  | Json.bool _ => rfl
  | Json.num _ => rfl
  | Json.str _ => rfl
  | Json.arr es => by
    simp only [jsonToVal, valToJson]
    rw [valsToJsonList_jsonListToVals es]
  | Json.obj fs => by
    simp only [jsonToVal, valToJson]
    rw [valsToJsonFields_jsonFieldsToVals fs]

theorem valsToJsonList_jsonListToVals :
    ∀ es, valsToJsonList (jsonListToVals es) = es
  | [] => rfl
  | e :: es => by
    simp only [jsonListToVals, valsToJsonList]
    rw [valToJson_jsonToVal e, valsToJsonList_jsonListToVals es]

theorem valsToJsonFields_jsonFieldsToVals :
    ∀ fs, valsToJsonFields (jsonFieldsToVals fs) = fs
  | [] => rfl
  | (k, v) :: fs => by
    simp only [jsonFieldsToVals, valsToJsonFields]
    rw [valToJson_jsonToVal v, valsToJsonFields_jsonFieldsToVals fs]

end

/-! ## Headers and metadata: `HTTPToGRPC` / `GRPCToHTTP`

`HTTPToGRPC` builds gRPC metadata from the HTTP headers with
`md.Append(key, values...)` (which lowercases the key and appends the
values in order, and is a no-op for an empty value slice).  `GRPCToHTTP`
turns metadata back into HTTP headers with `httpReq.Header.Add(key, value)`
per value (which canonicalizes the key via
`textproto.CanonicalMIMEHeaderKey`) and then forces
`httpReq.Header.Set("Content-Type", "application/json")`.

Header maps are modelled as association lists from key to the ordered list
of values; `http.Header` and `metadata.MD` are Go maps, whose per-key value
order is what the code observes.  ASCII case mapping is modelled (header
keys are ASCII in `textproto`; `strings.ToLower` agrees with it there). -/

def toLowerChar (c : Char) : Char :=
  if 65 ≤ c.toNat ∧ c.toNat ≤ 90 then Char.ofNat (c.toNat + 32) else c

def toUpperChar (c : Char) : Char :=
  if 97 ≤ c.toNat ∧ c.toNat ≤ 122 then Char.ofNat (c.toNat - 32) else c

theorem toNat_ofNat_valid (n : Nat) (h : n < 55296) :
    (Char.ofNat n).toNat = n := by
  have hv : n.isValidChar := Or.inl (by omega)
  rw [Char.ofNat, dif_pos hv]
  rfl

theorem toLower_toUpper (c : Char) : toLowerChar (toUpperChar c) = toLowerChar c := by
  by_cases h : 97 ≤ c.toNat ∧ c.toNat ≤ 122
  · have e : (Char.ofNat (c.toNat - 32)).toNat = c.toNat - 32 :=
      toNat_ofNat_valid _ (by omega)
    simp only [toUpperChar, if_pos h, toLowerChar, e]
    split_ifs with h1 h2
    · omega
    · have e2 : c.toNat - 32 + 32 = c.toNat := by omega
      rw [e2, Char.ofNat_toNat]
    · omega
    · omega
  · simp only [toUpperChar, if_neg h]

theorem toLower_toLower (c : Char) : toLowerChar (toLowerChar c) = toLowerChar c := by
  by_cases h : 65 ≤ c.toNat ∧ c.toNat ≤ 90
  · have e : (Char.ofNat (c.toNat + 32)).toNat = c.toNat + 32 :=
      toNat_ofNat_valid _ (by omega)
    have inner : toLowerChar c = Char.ofNat (c.toNat + 32) := by
      rw [toLowerChar, if_pos h]
    rw [inner, toLowerChar, e, if_neg (by omega)]
  · have inner : toLowerChar c = c := by
      rw [toLowerChar, if_neg h]
    rw [inner]
    exact inner

def lowerStr (s : String) : String := String.mk (s.data.map toLowerChar)

def isTokenChar (c : Char) : Bool :=
  c.isAlphanum || c == '!' || c == '#' || c == '$' || c == '%' || c == '&' ||
  c.toNat == 39 || c == '*' || c == '+' || c == '-' || c == '.' ||
  c == '^' || c == '_' || c.toNat == 96 || c == '|' || c == '~'

def canonChars : Bool → List Char → List Char
  | _, [] => []
  | up, c :: rest =>
    (if up then toUpperChar c else toLowerChar c) :: canonChars (c == '-') rest

def canonicalMIMEHeaderKey (s : String) : String :=
  if s.data.all isTokenChar then String.mk (canonChars true s.data) else s

theorem map_toLower_canonChars (cs : List Char) :
    ∀ up, (canonChars up cs).map toLowerChar = cs.map toLowerChar := by
  induction cs with
  | nil => intro up; rfl
  | cons c rest ih =>
    intro up
    simp only [canonChars, List.map_cons, ih]
    cases up
    · simp [toLower_toLower]
    · simp [toLower_toUpper]

theorem lowerStr_canonical (s : String) :
    lowerStr (canonicalMIMEHeaderKey s) = lowerStr s := by
  rw [canonicalMIMEHeaderKey]
  split_ifs with h
  · simp only [lowerStr]
    rw [map_toLower_canonChars]
  · rfl

theorem lowerStr_idem (s : String) : lowerStr (lowerStr s) = lowerStr s := by
  simp only [lowerStr, List.map_map]
  congr 1
  apply List.map_congr_left
  intro c _
  exact toLower_toLower c


abbrev KVList := List (String × List String)

def assocAppend : KVList → String → List String → KVList
  | [], k, vs => [(k, vs)]
  | (k', vs') :: rest, k, vs =>
    if k' == k then (k', vs' ++ vs) :: rest
    else (k', vs') :: assocAppend rest k vs

def mdAppend (md : KVList) (k : String) (vs : List String) : KVList :=
  if vs.isEmpty then md else assocAppend md (lowerStr k) vs

def headersToMetadata (h : KVList) : KVList :=
  h.foldl (fun md e => mdAppend md e.1 e.2) []

def hdrAdd (h : KVList) (k v : String) : KVList :=
  assocAppend h (canonicalMIMEHeaderKey k) [v]

def assocSet : KVList → String → List String → KVList
  | [], k, vs => [(k, vs)]
  | (k', vs') :: rest, k, vs =>
    if k' == k then (k', vs) :: rest else (k', vs') :: assocSet rest k vs

def hdrSet (h : KVList) (k v : String) : KVList :=
  assocSet h (canonicalMIMEHeaderKey k) [v]

def metadataToHeaders (md : KVList) : KVList :=
  md.foldl (fun h e => e.2.foldl (fun h' v => hdrAdd h' e.1 v) h) []

def grpcOutHeaders (md : KVList) : KVList :=
  hdrSet (metadataToHeaders md) "Content-Type" "application/json"

def valuesCI (h : KVList) (lk : String) : List String :=
  h.foldr (fun e acc => if lowerStr e.1 == lk then e.2 ++ acc else acc) []

def mdLookup (md : KVList) (k : String) : Option (List String) :=
  (md.find? (fun e => e.1 == k)).map (·.2)

theorem assocAppend_absent (l : KVList) (k : String) (vs : List String)
    (h : ∀ e ∈ l, e.1 ≠ k) : assocAppend l k vs = l ++ [(k, vs)] := by
  induction l with
  | nil => rfl
  | cons e rest ih =>
    obtain ⟨k', vs'⟩ := e
    have hk : (k' == k) = false := by
      simpa using h (k', vs') (by simp)
    rw [assocAppend, if_neg (by simp [hk])]
    rw [ih (fun e he => h e (by simp [he]))]
    simp

theorem assocAppend_last (l : KVList) (k : String) (acc vs : List String)
    (h : ∀ e ∈ l, e.1 ≠ k) :
    assocAppend (l ++ [(k, acc)]) k vs = l ++ [(k, acc ++ vs)] := by
  induction l with
  | nil => simp [assocAppend]
  | cons e rest ih =>
    obtain ⟨k', vs'⟩ := e
    have hk : (k' == k) = false := by
      simpa using h (k', vs') (by simp)
    show assocAppend ((k', vs') :: (rest ++ [(k, acc)])) k vs = _
    rw [assocAppend, if_neg (by simp [hk])]
    rw [ih (fun e he => h e (by simp [he]))]
    simp

theorem foldl_assocAppend_singleton (k : String) (vs : List String)
    (l : KVList) (acc : List String) (h : ∀ e ∈ l, e.1 ≠ k) :
    vs.foldl (fun h' v => assocAppend h' k [v]) (l ++ [(k, acc)]) =
      l ++ [(k, acc ++ vs)] := by
  induction vs generalizing acc with
  | nil => simp
  | cons v rest ih =>
    show rest.foldl _ (assocAppend (l ++ [(k, acc)]) k [v]) = _
    rw [assocAppend_last l k acc [v] h, ih (acc ++ [v])]
    simp

theorem foldl_assocAppend_fresh (k : String) (vs : List String)
    (l : KVList) (hvs : vs ≠ []) (h : ∀ e ∈ l, e.1 ≠ k) :
    vs.foldl (fun h' v => assocAppend h' k [v]) l = l ++ [(k, vs)] := by
  cases vs with
  | nil => exact absurd rfl hvs
  | cons v rest =>
    show rest.foldl _ (assocAppend l k [v]) = _
    rw [assocAppend_absent l k [v] h, foldl_assocAppend_singleton k rest l [v] h]
    simp

theorem headersToMetadata_aux (h : KVList) :
    ∀ md0 : KVList,
    (h.map (fun e => lowerStr e.1)).Pairwise (· ≠ ·) →
    (∀ e ∈ h, e.2 ≠ []) →
    (∀ e ∈ md0, ∀ e' ∈ h, e.1 ≠ lowerStr e'.1) →
    h.foldl (fun md e => mdAppend md e.1 e.2) md0 =
      md0 ++ h.map (fun e => (lowerStr e.1, e.2)) := by
  induction h with
  | nil => intro md0 _ _ _; simp
  | cons e rest ih =>
    intro md0 hd hv hdisj
    obtain ⟨k, vs⟩ := e
    rw [List.map_cons, List.pairwise_cons] at hd
    obtain ⟨hd1, hd2⟩ := hd
    have hvs : vs ≠ [] := hv (k, vs) (by simp)
    have hstep : mdAppend md0 k vs = md0 ++ [(lowerStr k, vs)] := by
      rw [mdAppend, if_neg (by simpa using hvs)]
      exact assocAppend_absent md0 (lowerStr k) vs
        (fun e he => hdisj e he (k, vs) (by simp))
    show rest.foldl _ (mdAppend md0 k vs) = _
    rw [hstep]
    rw [ih (md0 ++ [(lowerStr k, vs)]) hd2
      (fun e he => hv e (by simp [he]))
      ?_]
    · simp
    · intro e he e' he'
      rcases List.mem_append.mp he with h1 | h1
      · exact hdisj e h1 e' (by simp [he'])
      · have he2 : e = (lowerStr k, vs) := by simpa using h1
        subst he2
        exact hd1 (lowerStr e'.1) (List.mem_map_of_mem _ he')

theorem headersToMetadata_map (h : KVList)
    (hd : (h.map (fun e => lowerStr e.1)).Pairwise (· ≠ ·))
    (hv : ∀ e ∈ h, e.2 ≠ []) :
    headersToMetadata h = h.map (fun e => (lowerStr e.1, e.2)) := by
  have := headersToMetadata_aux h [] hd hv (by simp)
  simpa [headersToMetadata] using this

theorem metadataToHeaders_aux (md : KVList) :
    ∀ h0 : KVList,
    (md.map (fun e => lowerStr e.1)).Pairwise (· ≠ ·) →
    (∀ e ∈ md, e.2 ≠ []) →
    (∀ e ∈ h0, ∀ e' ∈ md, e.1 ≠ canonicalMIMEHeaderKey e'.1) →
    md.foldl (fun h e => e.2.foldl (fun h' v => hdrAdd h' e.1 v) h) h0 =
      h0 ++ md.map (fun e => (canonicalMIMEHeaderKey e.1, e.2)) := by
  induction md with
  | nil => intro h0 _ _ _; simp
  | cons e rest ih =>
    intro h0 hd hv hdisj
    obtain ⟨k, vs⟩ := e
    rw [List.map_cons, List.pairwise_cons] at hd
    obtain ⟨hd1, hd2⟩ := hd
    have hvs : vs ≠ [] := hv (k, vs) (by simp)
    have hstep : vs.foldl (fun h' v => hdrAdd h' k v) h0 =
        h0 ++ [(canonicalMIMEHeaderKey k, vs)] := by
      show vs.foldl
        (fun h' v => assocAppend h' (canonicalMIMEHeaderKey k) [v]) h0 = _
      exact foldl_assocAppend_fresh (canonicalMIMEHeaderKey k) vs h0 hvs
        (fun e he => hdisj e he (k, vs) (by simp))
    show rest.foldl _ (vs.foldl (fun h' v => hdrAdd h' k v) h0) = _
    rw [hstep]
    rw [ih (h0 ++ [(canonicalMIMEHeaderKey k, vs)]) hd2
      (fun e he => hv e (by simp [he]))
      ?_]
    · simp
    · intro e he e' he'
      rcases List.mem_append.mp he with h1 | h1
      · exact hdisj e h1 e' (by simp [he'])
      · have he2 : e = (canonicalMIMEHeaderKey k, vs) := by simpa using h1
        subst he2
        intro hcontra
        have hlow : lowerStr k = lowerStr e'.1 := by
          have := congrArg lowerStr hcontra
          rwa [lowerStr_canonical, lowerStr_canonical] at this
        exact hd1 (lowerStr e'.1) (List.mem_map_of_mem _ he') hlow

theorem metadataToHeaders_map (md : KVList)
    (hd : (md.map (fun e => lowerStr e.1)).Pairwise (· ≠ ·))
    (hv : ∀ e ∈ md, e.2 ≠ []) :
    metadataToHeaders md = md.map (fun e => (canonicalMIMEHeaderKey e.1, e.2)) := by
  have := metadataToHeaders_aux md [] hd hv (by simp)
  simpa [metadataToHeaders] using this

theorem valuesCI_absent (h : KVList) (lk : String)
    (ha : ∀ e ∈ h, lowerStr e.1 ≠ lk) : valuesCI h lk = [] := by
  induction h with
  | nil => rfl
  | cons e rest ih =>
    have he : (lowerStr e.1 == lk) = false := by
      simpa using ha e (by simp)
    show (if lowerStr e.1 == lk then e.2 ++ valuesCI rest lk
      else valuesCI rest lk) = []
    rw [he]
    simp only [Bool.false_eq_true, if_false]
    exact ih (fun e' he' => ha e' (by simp [he']))

theorem valuesCI_mem (h : KVList) (k : String) (vs : List String)
    (hd : (h.map (fun e => lowerStr e.1)).Pairwise (· ≠ ·))
    (hm : (k, vs) ∈ h) : valuesCI h (lowerStr k) = vs := by
  induction h with
  | nil => simp at hm
  | cons e rest ih =>
    rw [List.map_cons, List.pairwise_cons] at hd
    obtain ⟨hd1, hd2⟩ := hd
    rcases List.mem_cons.mp hm with h1 | h1
    · subst h1
      show (if lowerStr k == lowerStr k then vs ++ valuesCI rest (lowerStr k)
        else valuesCI rest (lowerStr k)) = vs
      rw [beq_self_eq_true]
      simp only [if_true]
      rw [valuesCI_absent rest (lowerStr k)
        (fun e' he' => fun hc => hd1 (lowerStr e'.1)
          (List.mem_map_of_mem _ he') hc.symm)]
      simp
    · have hne : (lowerStr e.1 == lowerStr k) = false := by
        have : (k, vs) ∈ rest := h1
        have hmem : lowerStr k ∈ rest.map (fun e => lowerStr e.1) := by
          exact List.mem_map_of_mem _ this
        simpa using hd1 (lowerStr k) hmem
      show (if lowerStr e.1 == lowerStr k then
          e.2 ++ valuesCI rest (lowerStr k)
        else valuesCI rest (lowerStr k)) = vs
      rw [hne]
      simp only [Bool.false_eq_true, if_false]
      exact ih hd2 h1

theorem valuesCI_assocSet_other (h : KVList) (k : String) (vs : List String)
    (lk : String) (hne : lowerStr k ≠ lk) :
    valuesCI (assocSet h k vs) lk = valuesCI h lk := by
  induction h with
  | nil =>
    have hb : (lowerStr k == lk) = false := by simpa using hne
    show (if lowerStr k == lk then vs ++ valuesCI [] lk
      else valuesCI [] lk) = valuesCI [] lk
    rw [hb]
    simp
  | cons e rest ih =>
    obtain ⟨k0, v0⟩ := e
    by_cases hk : k0 = k
    · subst hk
      show valuesCI ((if k0 == k0 then (k0, vs) :: rest
        else (k0, v0) :: assocSet rest k0 vs)) lk = _
      rw [beq_self_eq_true]
      simp only [if_true]
      have hne0 : (lowerStr k0 == lk) = false := by simpa using hne
      show (if lowerStr k0 == lk then vs ++ valuesCI rest lk
        else valuesCI rest lk) = (if lowerStr k0 == lk then
          v0 ++ valuesCI rest lk else valuesCI rest lk)
      rw [hne0]
      simp
    · have hk0 : (k0 == k) = false := by simpa using hk
      show valuesCI ((if k0 == k then (k0, vs) :: rest
        else (k0, v0) :: assocSet rest k vs)) lk = _
      rw [hk0]
      simp only [Bool.false_eq_true, if_false]
      show (if lowerStr k0 == lk then v0 ++ valuesCI (assocSet rest k vs) lk
        else valuesCI (assocSet rest k vs) lk) = _
      rw [ih]
      rfl

theorem valuesCI_assocSet_self (h : KVList) (k : String) (vs : List String)
    (lk : String) (hlk : lowerStr k = lk)
    (hd : (h.map (fun e => lowerStr e.1)).Pairwise (· ≠ ·))
    (honly : ∀ e ∈ h, lowerStr e.1 = lk → e.1 = k) :
    valuesCI (assocSet h k vs) lk = vs := by
  induction h with
  | nil =>
    have hb : (lowerStr k == lk) = true := by simpa using hlk
    show (if lowerStr k == lk then vs ++ valuesCI [] lk
      else valuesCI [] lk) = vs
    rw [hb]
    simp [valuesCI]
  | cons e rest ih =>
    obtain ⟨k0, v0⟩ := e
    rw [List.map_cons, List.pairwise_cons] at hd
    obtain ⟨hd1, hd2⟩ := hd
    by_cases hk : k0 = k
    · subst hk
      show valuesCI ((if k0 == k0 then (k0, vs) :: rest
        else (k0, v0) :: assocSet rest k0 vs)) lk = _
      rw [beq_self_eq_true]
      simp only [if_true]
      have hpos : (lowerStr k0 == lk) = true := by simpa using hlk
      show (if lowerStr k0 == lk then vs ++ valuesCI rest lk
        else valuesCI rest lk) = vs
      rw [hpos]
      simp only [if_true]
      rw [valuesCI_absent rest lk (fun e' he' hc => by
        exact hd1 (lowerStr e'.1) (List.mem_map_of_mem _ he')
          (by rw [hlk, hc]))]
      simp
    · have hk0 : (k0 == k) = false := by simpa using hk
      have hne0 : lowerStr k0 ≠ lk := fun hc => hk (honly (k0, v0) (by simp) hc)
      show valuesCI ((if k0 == k then (k0, vs) :: rest
        else (k0, v0) :: assocSet rest k vs)) lk = _
      rw [hk0]
      simp only [Bool.false_eq_true, if_false]
      have hne0b : (lowerStr k0 == lk) = false := by simpa using hne0
      show (if lowerStr k0 == lk then v0 ++ valuesCI (assocSet rest k vs) lk
        else valuesCI (assocSet rest k vs) lk) = _
      rw [hne0b]
      simp only [Bool.false_eq_true, if_false]
      exact ih hd2 (fun e' he' => honly e' (by simp [he']))

theorem mdLookup_mem (md : KVList) (k : String) (vs : List String)
    (hd : (md.map (·.1)).Pairwise (· ≠ ·)) (hm : (k, vs) ∈ md) :
    mdLookup md k = some vs := by
  induction md with
  | nil => simp at hm
  | cons e rest ih =>
    rw [List.map_cons, List.pairwise_cons] at hd
    obtain ⟨hd1, hd2⟩ := hd
    rcases List.mem_cons.mp hm with h1 | h1
    · subst h1
      simp [mdLookup, List.find?_cons]
    · have hne : (e.1 == k) = false := by
        have : k ∈ rest.map (·.1) := List.mem_map_of_mem _ h1
        simpa using hd1 k this
      rw [mdLookup, List.find?_cons, hne]
      exact ih hd2 h1

theorem lowmap_of_mapped (h : KVList) :
    ((h.map (fun e => (lowerStr e.1, e.2))).map (fun e => lowerStr e.1)) =
      h.map (fun e => lowerStr e.1) := by
  rw [List.map_map]
  apply List.map_congr_left
  intro e _
  exact lowerStr_idem e.1

theorem lowmap_of_canon (h : KVList) :
    ((h.map (fun e => (canonicalMIMEHeaderKey (lowerStr e.1), e.2))).map
        (fun e => lowerStr e.1)) =
      h.map (fun e => lowerStr e.1) := by
  rw [List.map_map]
  apply List.map_congr_left
  intro e _
  show lowerStr (canonicalMIMEHeaderKey (lowerStr e.1)) = lowerStr e.1
  rw [lowerStr_canonical, lowerStr_idem]

theorem grpcOut_shape (h : KVList)
    (hd : (h.map (fun e => lowerStr e.1)).Pairwise (· ≠ ·))
    (hv : ∀ e ∈ h, e.2 ≠ []) :
    metadataToHeaders (headersToMetadata h) =
      h.map (fun e => (canonicalMIMEHeaderKey (lowerStr e.1), e.2)) := by
  rw [headersToMetadata_map h hd hv]
  rw [metadataToHeaders_map _ (by rw [lowmap_of_mapped]; exact hd)
    (by intro e he
        obtain ⟨a, ha, rfl⟩ := List.mem_map.mp he
        exact hv a ha)]
  rw [List.map_map]
  apply List.map_congr_left
  intro e _
  rfl

theorem c2_headers (h : KVList)
    (hd : (h.map (fun e => lowerStr e.1)).Pairwise (· ≠ ·))
    (hv : ∀ e ∈ h, e.2 ≠ []) :
    (∀ k vs, (k, vs) ∈ h → lowerStr k ≠ "content-type" →
      valuesCI (grpcOutHeaders (headersToMetadata h)) (lowerStr k) = vs ∧
      valuesCI h (lowerStr k) = vs) ∧
    valuesCI (grpcOutHeaders (headersToMetadata h)) "content-type" =
      ["application/json"] := by
  have hH := grpcOut_shape h hd hv
  have hdH : ((h.map (fun e => (canonicalMIMEHeaderKey (lowerStr e.1),
      e.2))).map (fun e => lowerStr e.1)).Pairwise (· ≠ ·) := by
    rw [lowmap_of_canon]; exact hd
  have hCT : canonicalMIMEHeaderKey "Content-Type" = "Content-Type" := by
    decide
  have hCTlow : lowerStr "Content-Type" = "content-type" := by decide
  refine ⟨?_, ?_⟩
  · intro k vs hm hne
    refine ⟨?_, valuesCI_mem h k vs hd hm⟩
    have hne2 : lowerStr "Content-Type" ≠ lowerStr k := by
      rw [hCTlow]
      exact fun hc => hne hc.symm
    show valuesCI (hdrSet (metadataToHeaders (headersToMetadata h))
      "Content-Type" "application/json") (lowerStr k) = vs
    rw [hdrSet, hCT]
    rw [valuesCI_assocSet_other _ _ _ _ hne2]
    rw [hH]
    have hmem : (canonicalMIMEHeaderKey (lowerStr k), vs) ∈
        h.map (fun e => (canonicalMIMEHeaderKey (lowerStr e.1), e.2)) :=
      List.mem_map.mpr ⟨(k, vs), hm, rfl⟩
    have hv2 := valuesCI_mem _ _ _ hdH hmem
    rwa [lowerStr_canonical, lowerStr_idem] at hv2
  · show valuesCI (hdrSet (metadataToHeaders (headersToMetadata h))
      "Content-Type" "application/json") "content-type" = _
    rw [hdrSet, hCT, hH]
    apply valuesCI_assocSet_self _ _ _ _ hCTlow hdH
    intro e he hc
    obtain ⟨a, ha, rfl⟩ := List.mem_map.mp he
    show canonicalMIMEHeaderKey (lowerStr a.1) = "Content-Type"
    rw [lowerStr_canonical, lowerStr_idem] at hc
    rw [hc]
    decide

/-- C2 (counterexample): the claim "h' has an identical name-to-values
multiset as h" fails at the concrete input `h = []` (no headers, empty
body): `GRPCToHTTP` executes `Header.Set("Content-Type",
"application/json")`, so the round-tripped header map contains a
Content-Type entry that the original header map does not. -/
theorem c2_counterexample :
    grpcOutHeaders (headersToMetadata []) =
      [("Content-Type", ["application/json"])] ∧
    ([] : KVList) ≠ [("Content-Type", ["application/json"])] := by
  constructor
  · decide
  · decide

/-- C2 (amended): for every JSON document that parses as an object (the
only shape `HTTPToGRPC` unmarshals, into `map[string]interface{}`) and
every header map whose names are distinct case-insensitively and carry at
least one value each, translating textual to structured
(`structpb.NewStruct` on the parsed fields, one metadata entry per header
with multi-value order preserved) and back (`AsMap` plus re-serialization,
metadata entries re-emitted as headers) yields a body with the identical
field set and values, and headers that agree with the originals on the
values of every name (names compared case-insensitively) except
Content-Type, which is forcibly set to exactly `application/json`. -/
theorem c2_round_trip (fields : List (String × Json)) (h : KVList)
    (hd : (h.map (fun e => lowerStr e.1)).Pairwise (· ≠ ·))
    (hv : ∀ e ∈ h, e.2 ≠ []) :
    valsToJsonFields (jsonFieldsToVals fields) = fields ∧
    (∀ k vs, (k, vs) ∈ h → lowerStr k ≠ "content-type" →
      valuesCI (grpcOutHeaders (headersToMetadata h)) (lowerStr k) = vs ∧
      valuesCI h (lowerStr k) = vs) ∧
    valuesCI (grpcOutHeaders (headersToMetadata h)) "content-type" =
      ["application/json"] := by
  have hh := c2_headers h hd hv
  exact ⟨valsToJsonFields_jsonFieldsToVals fields, hh.1, hh.2⟩

/-- C2 (witness): a concrete round trip — body object
`("amount", 100), ("note", "hi")` survives unchanged; header `X-Multi`
keeps its ordered values `["a", "b"]`; Content-Type comes back as
`application/json`. -/
theorem c2_witness :
    valsToJsonFields (jsonFieldsToVals
      [("amount", Json.num 100), ("note", Json.str "hi")]) =
      [("amount", Json.num 100), ("note", Json.str "hi")] ∧
    valuesCI (grpcOutHeaders (headersToMetadata
      [("X-Multi", ["a", "b"]), ("Accept", ["text/plain"])])) "x-multi" =
      ["a", "b"] ∧
    valuesCI (grpcOutHeaders (headersToMetadata
      [("X-Multi", ["a", "b"]), ("Accept", ["text/plain"])]))
      "content-type" = ["application/json"] := by
  have hc := c2_round_trip
    [("amount", Json.num 100), ("note", Json.str "hi")]
    [("X-Multi", ["a", "b"]), ("Accept", ["text/plain"])]
    (by decide) (by decide)
  refine ⟨hc.1, ?_, hc.2.2⟩
  have h1 := (hc.2.1 "X-Multi" ["a", "b"] (by simp) (by decide)).1
  have e : lowerStr "X-Multi" = "x-multi" := by decide
  rwa [e] at h1

/-! ## JSON parsing: `encoding/json` unmarshal in `HTTPToGRPC`

`HTTPToGRPC` calls `json.Unmarshal(bodyBytes, &requestData)` with
`requestData : map[string]interface{}`: parsing fails both on bytes that
are not well-formed JSON and on well-formed non-object documents.  The
parser below models the JSON grammar (recursive descent with a fuel bound
that is never the binding constraint on terminating inputs). -/

def skipWs (cs : List Char) : List Char :=
  cs.dropWhile (fun c => c == ' ' || c == '\t' || c == '\n' || c == '\r')

def escChar (c : Char) : Option Char :=
  match c.toNat with
  | 34 => some c
  | 92 => some c
  | 47 => some c
  | 110 => some (Char.ofNat 10)
  | 116 => some (Char.ofNat 9)
  | 114 => some (Char.ofNat 13)
  | 98 => some (Char.ofNat 8)
  | 102 => some (Char.ofNat 12)
  | _ => none

def hexVal (c : Char) : Option Nat :=
  if c.isDigit then some (c.toNat - 48)
  else if 'a' ≤ c ∧ c ≤ 'f' then some (c.toNat - 87)
  else if 'A' ≤ c ∧ c ≤ 'F' then some (c.toNat - 55)
  else none

def parseStrChars : List Char → List Char → Option (String × List Char)
  | _, [] => none
  | acc, '"' :: rest => some (String.mk acc.reverse, rest)
  | acc, '\\' :: 'u' :: h1 :: h2 :: h3 :: h4 :: rest =>
    match hexVal h1, hexVal h2, hexVal h3, hexVal h4 with
    | some a, some b, some c, some d =>
      parseStrChars (Char.ofNat (((a * 16 + b) * 16 + c) * 16 + d) :: acc) rest
    | _, _, _, _ => none
  | acc, '\\' :: e :: rest =>
    match escChar e with
    | some c => parseStrChars (c :: acc) rest
    | none => none
  | acc, c :: rest => parseStrChars (c :: acc) rest
termination_by _ cs => cs.length

def digitsToNat (ds : List Char) : Nat :=
  ds.foldl (fun n c => n * 10 + (c.toNat - 48)) 0

def parseNumber (cs : List Char) : Option (Json × List Char) :=
  let signed := match cs with
    | '-' :: r => (true, r)
    | _ => (false, cs)
  match List.span (fun c => c.isDigit) signed.2 with
  | ([], _) => none
  | (ds, rest) =>
    let fracStep : Option (Rat × List Char) := match rest with
      | '.' :: r2 =>
        match List.span (fun c => c.isDigit) r2 with
        | ([], _) => none
        | (fs, rest2) =>
          some ((digitsToNat ds : Rat) +
            (digitsToNat fs : Rat) / ((10 : Rat) ^ fs.length), rest2)
      | _ => some ((digitsToNat ds : Rat), rest)
    match fracStep with
    | none => none
    | some (mant, rest2) =>
      let mant := if signed.1 then -mant else mant
      match rest2 with
      | 'e' :: r3 => parseExp mant r3
      | 'E' :: r3 => parseExp mant r3
      | _ => some (Json.num mant, rest2)
where
  parseExp (mant : Rat) (cs : List Char) : Option (Json × List Char) :=
    let esigned := match cs with
      | '-' :: r => (true, r)
      | '+' :: r => (false, r)
      | _ => (false, cs)
    match List.span (fun c => c.isDigit) esigned.2 with
    | ([], _) => none
    | (es, rest3) =>
      let e : Int := if esigned.1 then -(digitsToNat es : Int)
        else (digitsToNat es : Int)
      some (Json.num (mant * (10 : Rat) ^ e), rest3)

mutual

def parseValue : Nat → List Char → Option (Json × List Char)
  | 0, _ => none
  | fuel + 1, cs =>
    match skipWs cs with
    | 'n' :: 'u' :: 'l' :: 'l' :: rest => some (Json.null, rest)
    | 't' :: 'r' :: 'u' :: 'e' :: rest => some (Json.bool true, rest)
    | 'f' :: 'a' :: 'l' :: 's' :: 'e' :: rest => some (Json.bool false, rest)
    | '"' :: rest =>
      match parseStrChars [] rest with
      | some (s, r) => some (Json.str s, r)
      | none => none
    | '[' :: rest => parseArrayBody fuel rest
    | '{' :: rest => parseObjBody fuel rest
    | c :: rest =>
      if c == '-' || c.isDigit then parseNumber (c :: rest) else none
    | [] => none

def parseArrayBody : Nat → List Char → Option (Json × List Char)
  | 0, _ => none
  | fuel + 1, cs =>
    match skipWs cs with
    | ']' :: r => some (Json.arr [], r)
    | _ => parseElems fuel cs []

def parseElems : Nat → List Char → List Json → Option (Json × List Char)
  | 0, _, _ => none
  | fuel + 1, cs, acc =>
    match parseValue fuel cs with
    | none => none
    | some (v, rest) =>
      match skipWs rest with
      | ',' :: r2 => parseElems fuel r2 (v :: acc)
      | ']' :: r2 => some (Json.arr (v :: acc).reverse, r2)
      | _ => none

def parseObjBody : Nat → List Char → Option (Json × List Char)
  | 0, _ => none
  | fuel + 1, cs =>
    match skipWs cs with
    | '}' :: r => some (Json.obj [], r)
    | _ => parseMembers fuel cs []

def parseMembers : Nat → List Char → List (String × Json) →
    Option (Json × List Char)
  | 0, _, _ => none
  | fuel + 1, cs, acc =>
    match skipWs cs with
    | '"' :: r =>
      match parseStrChars [] r with
      | none => none
      | some (key, r2) =>
        match skipWs r2 with
        | ':' :: r3 =>
          match parseValue fuel r3 with
          | none => none
          | some (v, r4) =>
            match skipWs r4 with
            | ',' :: r5 => parseMembers fuel r5 ((key, v) :: acc)
            | '}' :: r5 => some (Json.obj ((key, v) :: acc).reverse, r5)
            | _ => none
        | _ => none
    | _ => none

end

def parseJson (body : String) : Option Json :=
  match parseValue (3 * body.data.length + 3) body.data with
  | some (v, rest) => if (skipWs rest).isEmpty then some v else none
  | none => none


/-- Well-formed-object parse as `json.Unmarshal` into
`map[string]interface{}` sees it: `none` both for malformed bytes and for
well-formed non-object documents. -/
def parseJsonObject (body : String) : Option (List (String × Json)) :=
  match parseJson body with
  | some (Json.obj fs) => some fs
  | _ => none

/-- The textual-to-structured translation inside `HTTPToGRPC`: an empty
body leaves `requestData` nil, and `structpb.NewStruct(nil)` is the empty
document (not an error); a non-empty body is unmarshalled, failing on
malformed bytes (`"failed to unmarshal request"`); the headers become
metadata via `md.Append(key, values...)`. -/
def textualToStructured (body : String) (h : KVList) :
    Except String (SVal × KVList) :=
  if body.data.isEmpty then
    Except.ok (SVal.structValue [], headersToMetadata h)
  else
    match parseJsonObject body with
    | none => Except.error "failed to unmarshal request"
    | some fields =>
      Except.ok (SVal.structValue (jsonFieldsToVals fields),
        headersToMetadata h)

/-- C9: for the textual-to-structured translation, (1) an empty body
yields the empty document and is not an error; (2) bytes that do not parse
as a JSON document make the translation fail with the malformed-payload
error; (3) every header becomes exactly one metadata entry, keyed by the
lowercased header name, with its multi-value order preserved (header names
assumed case-insensitively distinct with at least one value each, as
`http.Header` provides). -/
theorem c9_translation_cases (body : String) (h : KVList)
    (hd : (h.map (fun e => lowerStr e.1)).Pairwise (· ≠ ·))
    (hv : ∀ e ∈ h, e.2 ≠ []) :
    textualToStructured "" h =
      Except.ok (SVal.structValue [], headersToMetadata h) ∧
    (body.data ≠ [] → parseJsonObject body = none →
      textualToStructured body h =
        Except.error "failed to unmarshal request") ∧
    (∀ k vs, (k, vs) ∈ h →
      mdLookup (headersToMetadata h) (lowerStr k) = some vs) := by
  refine ⟨rfl, ?_, ?_⟩
  · intro hb hp
    rw [textualToStructured, if_neg (by simpa using hb), hp]
  · intro k vs hm
    rw [headersToMetadata_map h hd hv]
    apply mdLookup_mem
    · rw [List.map_map]
      exact hd
    · exact List.mem_map.mpr ⟨(k, vs), hm, rfl⟩

/-- C9 (witness): empty body with header `X-Multi: a, b` succeeds with the
empty document; the malformed body `"\x7b"` (a lone opening brace) fails
with the unmarshal error; the metadata holds one entry `x-multi` with the
ordered values `["a", "b"]`. -/
theorem c9_witness :
    textualToStructured "" [("X-Multi", ["a", "b"])] =
      Except.ok (SVal.structValue [],
        headersToMetadata [("X-Multi", ["a", "b"])]) ∧
    textualToStructured "\x7b" [("X-Multi", ["a", "b"])] =
      Except.error "failed to unmarshal request" ∧
    mdLookup (headersToMetadata [("X-Multi", ["a", "b"])]) "x-multi" =
      some ["a", "b"] := by
  have t := c9_translation_cases "\x7b" [("X-Multi", ["a", "b"])]
    (by decide) (by decide)
  refine ⟨t.1, t.2.1 (by decide) (by rfl), ?_⟩
  have h3 := t.2.2 "X-Multi" ["a", "b"] (by simp)
  have e : lowerStr "X-Multi" = "x-multi" := by decide
  rwa [e] at h3

/-! ## Backend error propagation: `routeHTTPToGRPC` and `routeGRPCToHTTP`

On the HTTP-to-gRPC path a failed `conn.Invoke` error (a gRPC status
error rendered `rpc error: code = ... desc = ...`) is wrapped by
`HTTPToGRPC` as `gRPC invocation failed: %w` and surfaced by
`routeHTTPToGRPC` as `http.Error(w, "protocol conversion failed: %v",
http.StatusInternalServerError)`.  On the gRPC-to-HTTP path a non-200
backend response makes `GRPCToHTTP` return `HTTP request failed with
status %d: %s`, which `routeGRPCToHTTP` wraps as
`status.Errorf(codes.Internal, "protocol conversion failed: %v", err)`. -/

/-- A gRPC status: numeric code plus message. -/
structure GStatus where
  code : Nat
  msg : String
deriving Repr, DecidableEq

/-- `google.golang.org/grpc/codes.Code.String()` for the codes involved
here (unknown codes render as `Code(n)`). -/
def codeName : Nat → String
  | 0 => "OK"
  | 4 => "DeadlineExceeded"
  | 5 => "NotFound"
  | 13 => "Internal"
  | 14 => "Unavailable"
  | n => "Code(" ++ toString n ++ ")"

/-- `status.Error` rendering used by `%v` / `%w` formatting. -/
def statusErrText (s : GStatus) : String :=
  "rpc error: code = " ++ codeName s.code ++ " desc = " ++ s.msg

/-- `HTTPToGRPC` wrapping of a failed `conn.Invoke`. -/
def httpToGRPCInvokeErr (s : GStatus) : String :=
  "gRPC invocation failed: " ++ statusErrText s

/-- `routeHTTPToGRPC` error surface: HTTP status 500 plus the wrapped
message. -/
def routeHTTPToGRPCErrResp (s : GStatus) : Nat × String :=
  (500, "protocol conversion failed: " ++ httpToGRPCInvokeErr s)

/-- `GRPCToHTTP` response handling: a 200 answer returns the body, any
other backend status becomes an error embedding status and body. -/
def gRPCToHTTPRespHandler (statusCode : Nat) (respBody : String) :
    Except String String :=
  if statusCode == 200 then Except.ok respBody
  else Except.error ("HTTP request failed with status " ++
    toString statusCode ++ ": " ++ respBody)

/-- `routeGRPCToHTTP` error surface: conversion errors are wrapped as
`codes.Internal` (13) with the `protocol conversion failed` prefix. -/
def routeGRPCToHTTPResult (statusCode : Nat) (respBody : String) :
    Except GStatus String :=
  match gRPCToHTTPRespHandler statusCode respBody with
  | Except.error e =>
    Except.error { code := 13, msg := "protocol conversion failed: " ++ e }
  | Except.ok b => Except.ok b

/-- C8 (counterexample): the claim "the failure carries the backend's
original status ... not remapped to a generic error" fails concretely: a
backend answering 404 and a backend answering 503 both reach the caller as
gRPC code 13 (`codes.Internal`) with a `protocol conversion failed`
prefix — the typed failure's status is the same generic code for distinct
backend statuses. -/
theorem c8_counterexample :
    routeGRPCToHTTPResult 404 "nope" =
      Except.error
        { code := 13,
          msg := "protocol conversion failed: HTTP request failed with status 404: nope" } ∧
    routeGRPCToHTTPResult 503 "down" =
      Except.error
        { code := 13,
          msg := "protocol conversion failed: HTTP request failed with status 503: down" } ∧
    (404 : Nat) ≠ 503 := by
  refine ⟨rfl, rfl, by decide⟩

/-- C8 (amended): a backend-reported application failure is never
swallowed — it always reaches the caller as a failure whose message embeds
the backend's own status/message — but on both cited translation paths it
is remapped to a generic status: the HTTP-to-gRPC path answers HTTP 500
with `protocol conversion failed: gRPC invocation failed: <original
status error>`, and the gRPC-to-HTTP path answers gRPC code 13
(`codes.Internal`) with `protocol conversion failed: HTTP request failed
with status <code>: <body>`.  (Only the gRPC-to-gRPC relay path returns
the backend status error unchanged.) -/
theorem c8_error_remapped (s : GStatus) (statusCode : Nat)
    (respBody : String) (hs : statusCode ≠ 200) :
    routeHTTPToGRPCErrResp s =
      (500, "protocol conversion failed: gRPC invocation failed: " ++
        ("rpc error: code = " ++ codeName s.code ++ " desc = " ++ s.msg)) ∧
    routeGRPCToHTTPResult statusCode respBody =
      Except.error
        { code := 13,
          msg := "protocol conversion failed: " ++
            ("HTTP request failed with status " ++ toString statusCode ++
              ": " ++ respBody) } := by
  constructor
  · rfl
  · have hb : (statusCode == 200) = false := by simpa using hs
    rw [routeGRPCToHTTPResult, gRPCToHTTPRespHandler, hb]
    simp

/-- C8 (witness): a backend `NotFound` status surfaces as HTTP 500 with
the original message embedded; a backend 404 response surfaces as gRPC
code 13 with the original status and body embedded. -/
theorem c8_witness :
    routeHTTPToGRPCErrResp { code := 5, msg := "no such thing" } =
      (500, "protocol conversion failed: gRPC invocation failed: rpc error: code = NotFound desc = no such thing") ∧
    routeGRPCToHTTPResult 404 "missing" =
      Except.error
        { code := 13,
          msg := "protocol conversion failed: HTTP request failed with status 404: missing" } := by
  have h := c8_error_remapped { code := 5, msg := "no such thing" }
    404 "missing" (by decide)
  refine ⟨?_, ?_⟩
  · rw [h.1]
    decide
  · rw [h.2]
    congr 1

end Gateway
